import Mathlib

/-!
Shallow embedding of the registration-form logic of `takeat-signup-hub`
(`src/src/components/RegistrationForm.tsx`): the phone mask `formatPhone`,
the zod validation schema (`nome`, `sobrenome`, `email`, `celular`), and the
submit/edit state machine of the `RegistrationForm` component.

Strings are modelled as `List Char` (JavaScript strings; all characters that
matter here are in the Basic Multilingual Plane, where UTF-16 code units and
code points coincide on the accepted inputs).
-/

namespace Takeat

/-- The character class `\d` of a JavaScript regex without the `u` flag:
exactly the ASCII digits `0`-`9`. `value.replace(/\D/g, "")` keeps exactly
these characters. -/
def isDigitChar (c : Char) : Bool :=
  48 ≤ c.toNat && c.toNat ≤ 57

/-- ASCII letters `a`-`z`, `A`-`Z` (the `a-zA-Z` part of the name regex). -/
def isAsciiLetter (c : Char) : Bool :=
  (97 ≤ c.toNat && c.toNat ≤ 122) || (65 ≤ c.toNat && c.toNat ≤ 90)

/-- The set matched by `\s` in a JavaScript regex, which is also the set
removed by `String.prototype.trim`: tab, LF, VT, FF, CR, space, NBSP,
the Unicode space separators, line/paragraph separators and the BOM. -/
def isJsWhitespace (c : Char) : Bool :=
  c.toNat == 9 || c.toNat == 10 || c.toNat == 11 || c.toNat == 12 ||
  c.toNat == 13 || c.toNat == 32 || c.toNat == 160 || c.toNat == 5760 ||
  (8192 ≤ c.toNat && c.toNat ≤ 8202) || c.toNat == 8232 ||
  c.toNat == 8233 || c.toNat == 8239 || c.toNat == 8287 ||
  c.toNat == 12288 || c.toNat == 65279

/-- JavaScript `String.prototype.trim` (as used by zod's `.trim()`):
removes leading and trailing JS whitespace. -/
def jsTrim (s : List Char) : List Char :=
  ((s.dropWhile isJsWhitespace).reverse.dropWhile isJsWhitespace).reverse

/-- JavaScript `s.slice(a, b)` for `0 ≤ a ≤ b` (the only uses in the code). -/
def jsSlice (l : List Char) (a b : Nat) : List Char :=
  (l.drop a).take (b - a)

/-- JavaScript `s.slice(a)` for `0 ≤ a`. -/
def jsSliceFrom (l : List Char) (a : Nat) : List Char :=
  l.drop a

/-- The phone mask of `RegistrationForm.tsx` (`formatPhone`):
strip non-digits, then format as `(DD`, `(DD) DDDDD` or `(DD) DDDDD-DDDD`
depending on how many digits are present, ignoring digits past the 11th. -/
def formatPhone (value : List Char) : List Char :=
  let numbers := value.filter isDigitChar
  if numbers.length ≤ 2 then
    if numbers.length ≠ 0 then '(' :: numbers else []
  else if numbers.length ≤ 7 then
    '(' :: jsSlice numbers 0 2 ++ [')', ' '] ++ jsSliceFrom numbers 2
  else
    '(' :: jsSlice numbers 0 2 ++ [')', ' '] ++ jsSlice numbers 2 7 ++
      ['-'] ++ jsSlice numbers 7 11

/-- The character class of the name regex `/^[a-zA-ZÀ-ÿ\s]+$/`:
ASCII letters, the Latin-1 range U+00C0 - U+00FF (`À`-`ÿ`, which also
contains the two non-letters `×` and `÷`), and JS whitespace. -/
def isNameClassChar (c : Char) : Bool :=
  isAsciiLetter c || (192 ≤ c.toNat && c.toNat ≤ 255) || isJsWhitespace c

/-- The regex test `/^[a-zA-ZÀ-ÿ\s]+$/.test t`: nonempty and all characters
in the class. -/
def nameRegexTest (t : List Char) : Bool :=
  !t.isEmpty && t.all isNameClassChar

/-- The zod chain `z.string().trim().min(2,msg).max(50,msg).regex(...,msg)`
shared by `nome` and `sobrenome`: trim, then report the first failing check's
message, or `none` when the value passes. -/
def nameFieldCheck (minMsg maxMsg regexMsg : List Char) (s : List Char) :
    Option (List Char) :=
  let t := jsTrim s
  if t.length < 2 then some minMsg
  else if 50 < t.length then some maxMsg
  else if !nameRegexTest t then some regexMsg
  else none

def nomeMinMsg : List Char := "Nome deve ter pelo menos 2 caracteres".data
def nomeMaxMsg : List Char := "Nome deve ter no máximo 50 caracteres".data
def nomeRegexMsg : List Char := "Nome deve conter apenas letras".data
def sobrenomeMinMsg : List Char := "Sobrenome deve ter pelo menos 2 caracteres".data
def sobrenomeMaxMsg : List Char := "Sobrenome deve ter no máximo 50 caracteres".data
def sobrenomeRegexMsg : List Char := "Sobrenome deve conter apenas letras".data

/-- The `nome` field rule of `registrationSchema`. -/
def nomeFieldError (s : List Char) : Option (List Char) :=
  nameFieldCheck nomeMinMsg nomeMaxMsg nomeRegexMsg s

/-- The `sobrenome` field rule of `registrationSchema`. -/
def sobrenomeFieldError (s : List Char) : Option (List Char) :=
  nameFieldCheck sobrenomeMinMsg sobrenomeMaxMsg sobrenomeRegexMsg s

/-- Acceptance by the first-name rule (`none` = no validation issue). -/
def nameRule (s : List Char) : Bool :=
  (nomeFieldError s).isNone

/-- Characters allowed anywhere in the local part of an email by the
validation library's email syntax: letters, digits, `_`, apostrophe,
`+`, `-`, `.`. -/
def isLocalChar (c : Char) : Bool :=
  isAsciiLetter c || isDigitChar c || c == '_' || c == Char.ofNat 39 ||
  c == '+' || c == '-' || c == '.'

/-- Characters allowed as the last character of the local part (no dot,
no apostrophe). -/
def isLocalEndChar (c : Char) : Bool :=
  isAsciiLetter c || isDigitChar c || c == '_' || c == '+' || c == '-'

/-- Whether the list contains two adjacent dots. -/
def hasDoubleDot : List Char → Bool
  | '.' :: '.' :: _ => true
  | _ :: rest => hasDoubleDot rest
  | [] => false

/-- Characters allowed after the first character of a domain label:
letters, digits and hyphen. -/
def isLabelChar (c : Char) : Bool :=
  isAsciiLetter c || isDigitChar c || c == '-'

/-- A domain label: nonempty, starts with a letter or digit, continues with
letters, digits or hyphens. -/
def validLabel : List Char → Bool
  | [] => false
  | c :: rest => (isAsciiLetter c || isDigitChar c) && rest.all isLabelChar

/-- A top-level domain: at least two characters, letters only. -/
def validTld (l : List Char) : Bool :=
  2 ≤ l.length && l.all isAsciiLetter

/-- Split a list on the dot character. -/
def splitDot : List Char → List (List Char)
  | [] => [[]]
  | c :: rest =>
    if c == '.' then [] :: splitDot rest
    else
      match splitDot rest with
      | [] => [[c]]
      | p :: ps => (c :: p) :: ps

/-- Modelled from the spec: the "syntactically valid email address" check is
performed by the validation library (zod's `.email()`), whose code is not
part of this repository. Following the spec and the library's documented
grammar: a nonempty local part of letters, digits, `_`, apostrophe, `+`,
`-` and `.` that does not start with a dot, contains no two adjacent dots
and ends in a letter, digit, `_`, `+` or `-`; one `@`; then one or more
labels (letter/digit head, letter/digit/hyphen tail) separated by dots,
ending in an all-letter top-level domain of length at least 2. -/
def zodEmailValid (s : List Char) : Bool :=
  let lp := s.takeWhile (fun c => c != '@')
  match s.drop lp.length with
  | '@' :: domain =>
    !lp.isEmpty && lp.all isLocalChar &&
    (match lp with | '.' :: _ => false | _ => true) &&
    !hasDoubleDot lp && isLocalEndChar (lp.getLastD ' ') &&
    (let parts := splitDot domain
     2 ≤ parts.length && parts.dropLast.all validLabel &&
       validTld (parts.getLastD []))
  | _ => false

def emailInvalidMsg : List Char := "Email inválido".data
def emailTakeatMsg : List Char :=
  "Apenas emails com .takeat@ são aceitos (ex: arthur.takeat@gmail.com)".data

/-- Whether `pat` occurs as a prefix of `s` (`==` on characters). -/
def startsWithB : List Char → List Char → Bool
  | [], _ => true
  | _ :: _, [] => false
  | a :: as, b :: bs => a == b && startsWithB as bs

/-- JavaScript `s.includes(pat)`: `pat` occurs as a contiguous substring. -/
def hasSubstr (pat : List Char) : List Char → Bool
  | [] => startsWithB pat []
  | c :: rest => startsWithB pat (c :: rest) || hasSubstr pat rest

/-- The `email` field rule of `registrationSchema`:
`z.string().trim().email(msg).refine(includes ".takeat@", msg)`. -/
def emailFieldError (s : List Char) : Option (List Char) :=
  let t := jsTrim s
  if !zodEmailValid t then some emailInvalidMsg
  else if !hasSubstr (".takeat@".data) t then some emailTakeatMsg
  else none

/-- Acceptance by the email rule. -/
def emailRule (s : List Char) : Bool :=
  (emailFieldError s).isNone

/-- The celular regex `/^\(\d{2}\) \d{5}-\d{4}$/`: an exact match of
open paren, 2 digits, close paren, space, 5 digits, hyphen, 4 digits. -/
def celularRegexMatch : List Char → Bool
  | lp :: a :: b :: rp :: sp :: c :: d :: e :: f :: g :: dash :: h :: i :: j :: k :: [] =>
    lp == '(' && rp == ')' && sp == ' ' && dash == '-' &&
    isDigitChar a && isDigitChar b && isDigitChar c && isDigitChar d &&
    isDigitChar e && isDigitChar f && isDigitChar g && isDigitChar h &&
    isDigitChar i && isDigitChar j && isDigitChar k
  | _ => false

def celularMsg : List Char := "Celular deve estar no formato (99) 99999-9999".data

/-- The `celular` field rule of `registrationSchema`. -/
def celularFieldError (s : List Char) : Option (List Char) :=
  if !celularRegexMatch s then some celularMsg else none

/-- The four-valued submission status of the component
(`type SubmitStatus = "idle" | "loading" | "success" | "error"`). -/
inductive SubmitStatus
  | idle
  | loading
  | success
  | error
deriving DecidableEq, Repr

/-- The webhook payload built in `onSubmit`. -/
structure Payload where
  nome : List Char
  sobrenome : List Char
  email : List Char
  celular : List Char
deriving DecidableEq, Repr

/-- The per-field inline error messages (react-hook-form `errors`). -/
structure FieldErrors where
  nome : Option (List Char)
  sobrenome : Option (List Char)
  email : Option (List Char)
  celular : Option (List Char)
deriving DecidableEq, Repr

def noErrors : FieldErrors := ⟨none, none, none, none⟩

/-- The observable state of one `RegistrationForm` instance: the four field
values, the inline errors, the submit status with its message, the full
history of status values ever set (latest last, starting at `idle`), and
the list of payloads handed to `fetch` so far. -/
structure FormState where
  nome : List Char
  sobrenome : List Char
  email : List Char
  celular : List Char
  errors : FieldErrors
  submitStatus : SubmitStatus
  statusMessage : List Char
  statusHistory : List SubmitStatus
  dispatched : List Payload
deriving DecidableEq, Repr

/-- Run the whole `registrationSchema` on the current field values, as the
zod resolver does on submit. -/
def validateAll (st : FormState) : FieldErrors :=
  { nome := nomeFieldError st.nome
    sobrenome := sobrenomeFieldError st.sobrenome
    email := emailFieldError st.email
    celular := celularFieldError st.celular }

def successMsg : List Char := "Cadastro enviado com sucesso!".data
def errorMsg : List Char := "Erro ao enviar. Tente novamente.".data

/-- The `onSubmit` handler, reached only when the resolver reports no
errors. It receives the schema output (names and email trimmed by `.trim()`),
sets `loading`, builds the payload with the phone reduced to its digits,
fires the request without awaiting it, and sets `success` and clears the
form — or sets `error` if a local exception is thrown inside the `try`
block before the request is issued (`throws`). The eventual network
outcome (`netOk`) is never consulted: the promise returned by `fetch` is
not awaited and has no handler. -/
def onSubmitRun (throws netOk : Bool) (st : FormState) : FormState :=
  let st1 := { st with
    submitStatus := SubmitStatus.loading
    statusHistory := st.statusHistory ++ [SubmitStatus.loading]
    statusMessage := [] }
  let celularNumbers := st.celular.filter isDigitChar
  let payload : Payload :=
    { nome := jsTrim st.nome
      sobrenome := jsTrim st.sobrenome
      email := jsTrim st.email
      celular := celularNumbers }
  if throws then
    { st1 with
      submitStatus := SubmitStatus.error
      statusHistory := st1.statusHistory ++ [SubmitStatus.error]
      statusMessage := errorMsg }
  else
    -- the value of netOk plays no role: fire and forget
    let _ := netOk
    { st1 with
      dispatched := st1.dispatched ++ [payload]
      submitStatus := SubmitStatus.success
      statusHistory := st1.statusHistory ++ [SubmitStatus.success]
      statusMessage := successMsg
      nome := []
      sobrenome := []
      email := []
      celular := []
      errors := noErrors }

/-- `handleSubmit(onSubmit)`: the resolver validates every field; on any
error the errors are surfaced and `onSubmit` is never called (the status
and the dispatch list are untouched); otherwise `onSubmit` runs. -/
def handleSubmitEvent (throws netOk : Bool) (st : FormState) : FormState :=
  let errs := validateAll st
  if errs = noErrors then
    onSubmitRun throws netOk { st with errors := noErrors }
  else
    { st with errors := errs }

inductive Field
  | nome
  | sobrenome
  | email
  | celular
deriving DecidableEq, Repr

/-- A change event on one field. Text fields just store the raw value
(validation mode is `onBlur`). The phone field goes through
`handlePhoneChange`: the raw value is passed through `formatPhone` and
stored with `shouldValidate: true`, which re-runs the celular rule. No
field edit touches `submitStatus`, `statusMessage` or their history. -/
def editField (f : Field) (raw : List Char) (st : FormState) : FormState :=
  match f with
  | Field.nome => { st with nome := raw }
  | Field.sobrenome => { st with sobrenome := raw }
  | Field.email => { st with email := raw }
  | Field.celular =>
    let formatted := formatPhone raw
    { st with
      celular := formatted
      errors := { st.errors with celular := celularFieldError formatted } }

/-- A fresh form with the four example values of the spec's end-to-end
scenario already typed in. -/
def c5Start : FormState :=
  { nome := "Arthur".data
    sobrenome := "Takeat".data
    email := "arthur.takeat@gmail.com".data
    celular := "(11) 98765-4321".data
    errors := noErrors
    submitStatus := SubmitStatus.idle
    statusMessage := []
    statusHistory := [SubmitStatus.idle]
    dispatched := [] }

/-- The same scenario with the email missing `.takeat@`. -/
def c6Start : FormState :=
  { c5Start with email := "arthur@gmail.com".data }

/-- A state used to exercise `onSubmit` separately. -/
def c7Start : FormState :=
  { c5Start with
    nome := "Maria Clara".data
    sobrenome := "Souza".data
    email := "maria.takeat@outlook.com".data }

/-- A form sitting in the terminal `success` state. -/
def c8Start : FormState :=
  { nome := []
    sobrenome := []
    email := []
    celular := []
    errors := noErrors
    submitStatus := SubmitStatus.success
    statusMessage := successMsg
    statusHistory := [SubmitStatus.idle, SubmitStatus.loading, SubmitStatus.success]
    dispatched := [⟨"Arthur".data, "Takeat".data, "arthur.takeat@gmail.com".data,
      "11987654321".data⟩] }

/-- Follows the spec's words, not the code: a "letter (including accented
Latin letters)" — an ASCII letter or an accented Latin-1 letter, i.e. a
character of U+00C0 - U+00FF other than the multiplication sign U+00D7 and
the division sign U+00F7, which are symbols, not letters. -/
def isSpecLetter (c : Char) : Bool :=
  isAsciiLetter c ||
  (192 ≤ c.toNat && c.toNat ≤ 255 && c.toNat ≠ 215 && c.toNat ≠ 247)

example : formatPhone "11987654321999".data = "(11) 98765-4321".data := by decide
example : formatPhone "1".data = "(1".data := by decide
example : formatPhone "119".data = "(11) 9".data := by decide
example : formatPhone "".data = [] := by decide
example : nameRule "Arthur".data = true := by decide
example : nameRule "  ".data = false := by decide
example : nameRule "××".data = true := by decide
example : zodEmailValid "foo.takeat@gmail.com".data = true := by decide
example : zodEmailValid "foo@gmail.com".data = true := by decide
example : emailRule "foo@gmail.com".data = false := by decide
example : emailRule "foo.takeat@gmail.com".data = true := by decide
example : celularRegexMatch "(11) 98765-4321".data = true := by decide
example : celularRegexMatch "(11) 98765-432".data = false := by decide
example : validateAll c5Start = noErrors := by decide
example :
    (handleSubmitEvent false true c5Start).statusHistory =
      [SubmitStatus.idle, SubmitStatus.loading, SubmitStatus.success] := by decide
example :
    (handleSubmitEvent false true c5Start).dispatched =
      [⟨"Arthur".data, "Takeat".data, "arthur.takeat@gmail.com".data,
        "11987654321".data⟩] := by decide
example :
    (validateAll c6Start).email = some emailTakeatMsg ∧
    (validateAll c6Start).nome = none := by decide

/-! ### Lemmas about trimming and the name rule -/

lemma mem_dropWhile_of_not {p : Char → Bool} {c : Char} :
    ∀ {l : List Char}, c ∈ l → p c = false → c ∈ l.dropWhile p := by
  intro l
  induction l with
  | nil => intro h _; cases h
  | cons a t ih =>
    intro hmem hpc
    rw [List.dropWhile_cons]
    cases hpa : p a with
    | true =>
      simp only [hpa, if_true]
      rcases List.mem_cons.mp hmem with h | h
      · subst h; rw [hpa] at hpc; cases hpc
      · exact ih h hpc
    | false =>
      simp only [hpa, Bool.false_eq_true, if_false]
      exact hmem

lemma mem_of_mem_dropWhile {p : Char → Bool} {c : Char} {l : List Char}
    (h : c ∈ l.dropWhile p) : c ∈ l :=
  (List.dropWhile_sublist p).subset h

lemma mem_jsTrim {c : Char} {s : List Char} (hmem : c ∈ s)
    (hws : isJsWhitespace c = false) : c ∈ jsTrim s := by
  unfold jsTrim
  rw [List.mem_reverse]
  apply mem_dropWhile_of_not _ hws
  rw [List.mem_reverse]
  exact mem_dropWhile_of_not hmem hws

lemma mem_of_mem_jsTrim {c : Char} {s : List Char} (h : c ∈ jsTrim s) :
    c ∈ s := by
  unfold jsTrim at h
  rw [List.mem_reverse] at h
  have h1 := mem_of_mem_dropWhile h
  rw [List.mem_reverse] at h1
  exact mem_of_mem_dropWhile h1

lemma jsTrim_length_le (s : List Char) : (jsTrim s).length ≤ s.length := by
  unfold jsTrim
  rw [List.length_reverse]
  calc ((s.dropWhile isJsWhitespace).reverse.dropWhile isJsWhitespace).length
      ≤ (s.dropWhile isJsWhitespace).reverse.length :=
        (List.dropWhile_sublist _).length_le
    _ = (s.dropWhile isJsWhitespace).length := List.length_reverse _
    _ ≤ s.length := (List.dropWhile_sublist _).length_le

lemma nameFieldCheck_isNone (m1 m2 m3 s : List Char) :
    (nameFieldCheck m1 m2 m3 s).isNone =
      (decide (2 ≤ (jsTrim s).length) && decide ((jsTrim s).length ≤ 50) &&
        (jsTrim s).all isNameClassChar) := by
  unfold nameFieldCheck
  by_cases h1 : (jsTrim s).length < 2
  · rw [if_pos h1]
    have : ¬ (2 ≤ (jsTrim s).length) := by omega
    simp [this]
  · rw [if_neg h1]
    by_cases h2 : 50 < (jsTrim s).length
    · rw [if_pos h2]
      have : ¬ ((jsTrim s).length ≤ 50) := by omega
      simp [this]
    · rw [if_neg h2]
      have e2 : decide (2 ≤ (jsTrim s).length) = true := by
        simp only [decide_eq_true_eq]; omega
      have e50 : decide ((jsTrim s).length ≤ 50) = true := by
        simp only [decide_eq_true_eq]; omega
      rw [e2, e50]
      have hne : (jsTrim s).isEmpty = false := by
        cases he : (jsTrim s).isEmpty
        · rfl
        · rw [List.isEmpty_iff] at he
          rw [he] at h1
          simp at h1
      cases h3 : nameRegexTest (jsTrim s)
      · rw [if_pos (by decide)]
        unfold nameRegexTest at h3
        rw [hne] at h3
        simp only [Bool.not_false, Bool.true_and] at h3
        simp [h3]
      · rw [if_neg (by decide)]
        unfold nameRegexTest at h3
        rw [hne] at h3
        simp only [Bool.not_false, Bool.true_and] at h3
        simp [h3]

lemma nameRule_iff (s : List Char) :
    nameRule s = true ↔
      (2 ≤ (jsTrim s).length ∧ (jsTrim s).length ≤ 50 ∧
        ∀ c ∈ jsTrim s, isNameClassChar c = true) := by
  unfold nameRule nomeFieldError
  rw [nameFieldCheck_isNone]
  simp only [Bool.and_eq_true, decide_eq_true_eq, List.all_eq_true]
  tauto

lemma spec_subset_class (c : Char)
    (h : (isSpecLetter c || c == ' ') = true) : isNameClassChar c = true := by
  simp only [Bool.or_eq_true] at h
  rcases h with hl | hsp
  · simp only [isSpecLetter, isAsciiLetter, Bool.or_eq_true, Bool.and_eq_true,
      decide_eq_true_eq] at hl
    simp only [isNameClassChar, isAsciiLetter, isJsWhitespace, Bool.or_eq_true,
      Bool.and_eq_true, decide_eq_true_eq, beq_iff_eq]
    omega
  · have : c = ' ' := eq_of_beq hsp
    subst this
    decide

lemma digit_not_nameClass {c : Char} (h : isDigitChar c = true) :
    isNameClassChar c = false := by
  cases hcl : isNameClassChar c
  · rfl
  · exfalso
    simp only [isNameClassChar, isAsciiLetter, isJsWhitespace, Bool.or_eq_true,
      Bool.and_eq_true, decide_eq_true_eq, beq_iff_eq] at hcl
    simp only [isDigitChar, Bool.and_eq_true, decide_eq_true_eq] at h
    omega

/-! ### Claims C3, C9: the name rule -/

/-- C3, counterexample. The claim states that every string of only
letters/spaces with length 2-50 is accepted and that strings of raw length
51 or more are rejected. Both fail: the two-space string `"  "` consists
only of spaces and has length 2, yet the rule rejects it (it trims to the
empty string); and a space followed by fifty letters has raw length 51,
yet the rule accepts it (it trims to length 50). -/
theorem claim_C3_counterexample :
    "  ".data = [' ', ' '] ∧ ("  ".data).length = 2 ∧
      nameRule "  ".data = false ∧
      " aaaaaaaaaaaaaaaaaaaaaaaaaaaaaaaaaaaaaaaaaaaaaaaaaa".data =
        ' ' :: List.replicate 50 'a' ∧
      (" aaaaaaaaaaaaaaaaaaaaaaaaaaaaaaaaaaaaaaaaaaaaaaaaaa".data).length = 51 ∧
      nameRule " aaaaaaaaaaaaaaaaaaaaaaaaaaaaaaaaaaaaaaaaaaaaaaaaaa".data = true := by
  decide

/-- C3 (amended): the first-name and last-name rules pass exactly when the
trimmed value has length 2-50 and every remaining character is an ASCII
letter, a character of U+00C0 - U+00FF, or whitespace; every string of
letters/spaces whose TRIMMED length is 2-50 is accepted; and strings of
raw length 1, or of trimmed length 51 or more, are rejected. -/
theorem claim_C3_amended_name_rule :
    (∀ s : List Char, nameRule s = true ↔
        (2 ≤ (jsTrim s).length ∧ (jsTrim s).length ≤ 50 ∧
          ∀ c ∈ jsTrim s, isNameClassChar c = true)) ∧
    (∀ s : List Char, (sobrenomeFieldError s).isNone = nameRule s) ∧
    (∀ s : List Char, (∀ c ∈ s, (isSpecLetter c || c == ' ') = true) →
        2 ≤ (jsTrim s).length → (jsTrim s).length ≤ 50 → nameRule s = true) ∧
    (∀ s : List Char, s.length = 1 → nameRule s = false) ∧
    (∀ s : List Char, 51 ≤ (jsTrim s).length → nameRule s = false) := by
  refine ⟨nameRule_iff, ?_, ?_, ?_, ?_⟩
  · intro s
    unfold nameRule nomeFieldError sobrenomeFieldError
    rw [nameFieldCheck_isNone, nameFieldCheck_isNone]
  · intro s hall h2 h50
    rw [nameRule_iff]
    refine ⟨h2, h50, ?_⟩
    intro c hc
    exact spec_subset_class c (hall c (mem_of_mem_jsTrim hc))
  · intro s h1
    cases hn : nameRule s
    · rfl
    · exfalso
      have h := (nameRule_iff s).mp hn
      have := jsTrim_length_le s
      omega
  · intro s h51
    cases hn : nameRule s
    · rfl
    · exfalso
      have h := (nameRule_iff s).mp hn
      omega

/-- C3, witness: the amended theorem applied at `"ab"` (accepted), `"a"`
(raw length 1, rejected) and a 51-letter string (trimmed length 51,
rejected). -/
theorem claim_C3_witness :
    nameRule "ab".data = true ∧ nameRule "a".data = false ∧
      nameRule "aaaaaaaaaaaaaaaaaaaaaaaaaaaaaaaaaaaaaaaaaaaaaaaaaaa".data = false :=
  ⟨claim_C3_amended_name_rule.2.2.1 "ab".data (by decide) (by decide) (by decide),
   claim_C3_amended_name_rule.2.2.2.1 "a".data (by decide),
   claim_C3_amended_name_rule.2.2.2.2
     "aaaaaaaaaaaaaaaaaaaaaaaaaaaaaaaaaaaaaaaaaaaaaaaaaaa".data (by decide)⟩

/-- C9, counterexample. The multiplication sign `×` (U+00D7) is a symbol,
not a letter and not a space, yet the string `"××"` is accepted by the name
rule: the regex class `À-ÿ` is the full Latin-1 range U+00C0 - U+00FF,
which contains `×` and `÷`. -/
theorem claim_C9_counterexample :
    "××".data = ['×', '×'] ∧ isSpecLetter '×' = false ∧
      isDigitChar '×' = false ∧ '×' ≠ ' ' ∧ nameRule "××".data = true := by
  decide

/-- C9 (amended): every input string containing at least one digit, or at
least one character outside the regex class (ASCII letters, U+00C0 - U+00FF
— a range that also admits the symbols `×` and `÷` — and whitespace), is
rejected by the name rule regardless of length. -/
theorem claim_C9_amended_rejects :
    ∀ (s : List Char) (c : Char), c ∈ s →
      (isDigitChar c = true ∨ isNameClassChar c = false) →
      nameRule s = false := by
  intro s c hmem hbad
  have hclass : isNameClassChar c = false := by
    rcases hbad with h | h
    · exact digit_not_nameClass h
    · exact h
  have hws : isJsWhitespace c = false := by
    cases hw : isJsWhitespace c
    · rfl
    · exfalso
      have : isNameClassChar c = true := by
        unfold isNameClassChar
        rw [hw]
        simp
      rw [this] at hclass
      cases hclass
  have hmem2 : c ∈ jsTrim s := mem_jsTrim hmem hws
  cases hn : nameRule s
  · rfl
  · exfalso
    have h := (nameRule_iff s).mp hn
    have := h.2.2 c hmem2
    rw [this] at hclass
    cases hclass

/-- C9, witness: the amended theorem applied at `"a1b"` with the digit
`1`. -/
theorem claim_C9_witness : nameRule "a1b".data = false :=
  claim_C9_amended_rejects "a1b".data '1' (by decide) (Or.inl (by decide))

/-! ### Claim C8: editing a field in a terminal state -/

/-- C8, counterexample. With the form sitting in the terminal `success`
state, editing the first-name field leaves the status at `success`: no
code path resets `submitStatus` to `idle` on a field edit. -/
theorem claim_C8_counterexample :
    c8Start.submitStatus = SubmitStatus.success ∧
      (editField Field.nome "A".data c8Start).submitStatus = SubmitStatus.success ∧
      SubmitStatus.success ≠ SubmitStatus.idle := by
  decide

/-- C8 (amended): editing any field never changes the submission status,
its message or its history; in particular while `success` or `error` is
showing, an edit leaves the status unchanged rather than resetting it to
`idle`. -/
theorem claim_C8_amended_edit_keeps_status :
    ∀ (f : Field) (raw : List Char) (st : FormState),
      (editField f raw st).submitStatus = st.submitStatus ∧
      (editField f raw st).statusHistory = st.statusHistory ∧
      (editField f raw st).statusMessage = st.statusMessage := by
  intro f raw st
  cases f <;> exact ⟨rfl, rfl, rfl⟩

/-! ### Claim C4: the email rule -/

/-- C4: the email rule passes exactly when the trimmed value is a
syntactically valid email address (the validation library's grammar,
modelled from the spec in `zodEmailValid`) that contains the substring
`.takeat@`; in particular `foo@gmail.com` — syntactically valid — is
rejected and `foo.takeat@gmail.com` is accepted. -/
theorem claim_C4_email_rule :
    (∀ s : List Char, emailRule s = true ↔
        (zodEmailValid (jsTrim s) = true ∧
          hasSubstr (".takeat@".data) (jsTrim s) = true)) ∧
    zodEmailValid (jsTrim "foo@gmail.com".data) = true ∧
    emailRule "foo@gmail.com".data = false ∧
    emailRule "foo.takeat@gmail.com".data = true := by
  refine ⟨?_, by decide, by decide, by decide⟩
  intro s
  cases h1 : zodEmailValid (jsTrim s) <;>
    cases h2 : hasSubstr (".takeat@".data) (jsTrim s) <;>
      simp [emailRule, emailFieldError, h1, h2]

/-! ### Claims C5, C6, C7: the submit lifecycle -/

lemma handleSubmitEvent_valid (st : FormState) (throws netOk : Bool)
    (h : validateAll st = noErrors) :
    handleSubmitEvent throws netOk st =
      onSubmitRun throws netOk { st with errors := noErrors } := by
  unfold handleSubmitEvent
  simp [h]

lemma handleSubmitEvent_invalid (st : FormState) (throws netOk : Bool)
    (h : validateAll st ≠ noErrors) :
    handleSubmitEvent throws netOk st = { st with errors := validateAll st } := by
  unfold handleSubmitEvent
  simp [h]

/-- C5: submitting the form holding `nome="Arthur"`, `sobrenome="Takeat"`,
`email="arthur.takeat@gmail.com"`, `celular="(11) 98765-4321"` drives the
status from `idle` through `loading` to `success`, dispatches exactly one
payload with the phone reduced to its 11 raw digits, sets the fixed
confirmation message and clears all four fields — for either eventual
network outcome. -/
theorem claim_C5_end_to_end :
    ∀ netOk : Bool,
      (handleSubmitEvent false netOk c5Start).statusHistory =
        [SubmitStatus.idle, SubmitStatus.loading, SubmitStatus.success] ∧
      (handleSubmitEvent false netOk c5Start).dispatched =
        [⟨"Arthur".data, "Takeat".data, "arthur.takeat@gmail.com".data,
          "11987654321".data⟩] ∧
      (handleSubmitEvent false netOk c5Start).statusMessage = successMsg ∧
      (handleSubmitEvent false netOk c5Start).nome = [] ∧
      (handleSubmitEvent false netOk c5Start).sobrenome = [] ∧
      (handleSubmitEvent false netOk c5Start).email = [] ∧
      (handleSubmitEvent false netOk c5Start).celular = [] := by
  intro netOk
  cases netOk <;> decide

/-- C6: when any field fails validation, submit neither extends the status
history (so `loading` is never entered) nor dispatches anything; it only
surfaces the per-field errors. In the concrete scenario with
`email="arthur@gmail.com"` (missing `.takeat@`) and the other three fields
valid, the inline error appears on the email field only. -/
theorem claim_C6_invalid_no_dispatch :
    (∀ (st : FormState) (throws netOk : Bool), validateAll st ≠ noErrors →
        (handleSubmitEvent throws netOk st).statusHistory = st.statusHistory ∧
        (handleSubmitEvent throws netOk st).submitStatus = st.submitStatus ∧
        (handleSubmitEvent throws netOk st).dispatched = st.dispatched ∧
        (handleSubmitEvent throws netOk st).errors = validateAll st) ∧
    (validateAll c6Start ≠ noErrors ∧
      (validateAll c6Start).email = some emailTakeatMsg ∧
      (validateAll c6Start).nome = none ∧
      (validateAll c6Start).sobrenome = none ∧
      (validateAll c6Start).celular = none ∧
      (handleSubmitEvent false true c6Start).statusHistory = [SubmitStatus.idle] ∧
      (handleSubmitEvent false true c6Start).dispatched = []) := by
  constructor
  · intro st throws netOk hbad
    rw [handleSubmitEvent_invalid st throws netOk hbad]
    exact ⟨rfl, rfl, rfl, rfl⟩
  · decide

/-- C6, witness: the general part applied to the concrete invalid state
`c6Start`. -/
theorem claim_C6_witness :
    (handleSubmitEvent false true c6Start).statusHistory = c6Start.statusHistory ∧
      (handleSubmitEvent false true c6Start).dispatched = c6Start.dispatched :=
  ⟨(claim_C6_invalid_no_dispatch.1 c6Start false true (by decide)).1,
   (claim_C6_invalid_no_dispatch.1 c6Start false true (by decide)).2.2.1⟩

/-- C7: once validation passes, the status always reaches `success` right
after the dispatch is appended, for every value of the (never consulted)
network outcome; `error` is reached exactly when a local exception is
thrown inside the `try` block before the request is issued, and then the
generic error message is surfaced and nothing is dispatched. -/
theorem claim_C7_fire_and_forget :
    ∀ (st : FormState) (throws netOk : Bool), validateAll st = noErrors →
      ((handleSubmitEvent throws netOk st).submitStatus = SubmitStatus.error ↔
        throws = true) ∧
      (throws = false →
        (handleSubmitEvent throws netOk st).submitStatus = SubmitStatus.success ∧
        (handleSubmitEvent throws netOk st).statusHistory =
          st.statusHistory ++ [SubmitStatus.loading, SubmitStatus.success] ∧
        (handleSubmitEvent throws netOk st).dispatched =
          st.dispatched ++ [⟨jsTrim st.nome, jsTrim st.sobrenome,
            jsTrim st.email, st.celular.filter isDigitChar⟩] ∧
        (handleSubmitEvent throws netOk st).statusMessage = successMsg) ∧
      (throws = true →
        (handleSubmitEvent throws netOk st).statusMessage = errorMsg ∧
        (handleSubmitEvent throws netOk st).dispatched = st.dispatched ∧
        (handleSubmitEvent throws netOk st).statusHistory =
          st.statusHistory ++ [SubmitStatus.loading, SubmitStatus.error]) ∧
      (∀ netOk2 : Bool,
        handleSubmitEvent throws netOk2 st = handleSubmitEvent throws netOk st) := by
  intro st throws netOk hok
  refine ⟨?_, ?_, ?_, ?_⟩
  · rw [handleSubmitEvent_valid st throws netOk hok]
    cases throws <;> simp [onSubmitRun]
  · intro ht
    subst ht
    rw [handleSubmitEvent_valid st false netOk hok]
    refine ⟨rfl, ?_, ?_, rfl⟩ <;> simp [onSubmitRun]
  · intro ht
    subst ht
    rw [handleSubmitEvent_valid st true netOk hok]
    refine ⟨rfl, rfl, ?_⟩
    simp [onSubmitRun]
  · intro n2
    rw [handleSubmitEvent_valid st throws n2 hok,
      handleSubmitEvent_valid st throws netOk hok]
    cases throws <;> rfl

/-- C7, witness: the theorem applied at the concrete valid state `c7Start`,
in both the normal and the locally-throwing run. -/
theorem claim_C7_witness :
    (handleSubmitEvent false true c7Start).submitStatus = SubmitStatus.success ∧
      (handleSubmitEvent true true c7Start).statusMessage = errorMsg :=
  ⟨((claim_C7_fire_and_forget c7Start false true (by decide)).2.1 rfl).1,
   ((claim_C7_fire_and_forget c7Start true true (by decide)).2.2.1 rfl).1⟩

/-! ### Claims C1, C2, C10: the phone mask -/

lemma formatPhone_zero {s : List Char} (h : (s.filter isDigitChar).length = 0) :
    formatPhone s = [] := by
  have h' : s.filter isDigitChar = [] := List.length_eq_zero.mp h
  simp [formatPhone, h']

lemma formatPhone_small {s : List Char} (h1 : 1 ≤ (s.filter isDigitChar).length)
    (h2 : (s.filter isDigitChar).length ≤ 2) :
    formatPhone s = '(' :: s.filter isDigitChar := by
  simp only [formatPhone]
  rw [if_pos h2, if_pos (by omega)]

lemma formatPhone_mid {s : List Char} (h3 : 3 ≤ (s.filter isDigitChar).length)
    (h7 : (s.filter isDigitChar).length ≤ 7) :
    formatPhone s =
      '(' :: (s.filter isDigitChar).take 2 ++ [')', ' '] ++
        (s.filter isDigitChar).drop 2 := by
  simp only [formatPhone]
  rw [if_neg (by omega), if_pos h7]
  simp [jsSlice, jsSliceFrom]

lemma formatPhone_big {s : List Char} (h8 : 8 ≤ (s.filter isDigitChar).length) :
    formatPhone s =
      '(' :: (s.filter isDigitChar).take 2 ++ [')', ' '] ++
        ((s.filter isDigitChar).drop 2).take 5 ++ ['-'] ++
        ((s.filter isDigitChar).drop 7).take 4 := by
  simp only [formatPhone]
  rw [if_neg (by omega), if_neg (by omega)]
  simp [jsSlice]

/-- C1: the phone mask first keeps only the digits of the input and then
renders: nothing for 0 digits; `(` plus the digits for 1-2; `(DD) ` plus
the rest for 3-7; and the hyphenated `(DD) DDDDD-DDDD` shape for 8 or more
digits, using only the first 11; in particular `"11987654321999"` yields
`"(11) 98765-4321"`. -/
theorem claim_C1_phone_mask :
    (∀ s : List Char,
      ((s.filter isDigitChar).length = 0 → formatPhone s = []) ∧
      (1 ≤ (s.filter isDigitChar).length → (s.filter isDigitChar).length ≤ 2 →
        formatPhone s = '(' :: s.filter isDigitChar) ∧
      (3 ≤ (s.filter isDigitChar).length → (s.filter isDigitChar).length ≤ 7 →
        formatPhone s =
          '(' :: (s.filter isDigitChar).take 2 ++ [')', ' '] ++
            (s.filter isDigitChar).drop 2) ∧
      (8 ≤ (s.filter isDigitChar).length →
        formatPhone s =
          '(' :: (s.filter isDigitChar).take 2 ++ [')', ' '] ++
            ((s.filter isDigitChar).drop 2).take 5 ++ ['-'] ++
            ((s.filter isDigitChar).drop 7).take 4)) ∧
    formatPhone "11987654321999".data = "(11) 98765-4321".data :=
  ⟨fun _ => ⟨formatPhone_zero, formatPhone_small, formatPhone_mid, formatPhone_big⟩,
   by decide⟩

/-- C1, witness: the theorem applied in each digit-count regime. -/
theorem claim_C1_witness :
    formatPhone "1".data = "(1".data ∧
      formatPhone "12 34".data = "(12) 34".data ∧
      formatPhone "12345678".data = "(12) 34567-8".data := by
  refine ⟨?_, ?_, ?_⟩
  · rw [(claim_C1_phone_mask.1 "1".data).2.1 (by decide) (by decide)]
    decide
  · rw [(claim_C1_phone_mask.1 "12 34".data).2.2.1 (by decide) (by decide)]
    decide
  · rw [(claim_C1_phone_mask.1 "12345678".data).2.2.2 (by decide)]
    decide

lemma all_filter_digits (s : List Char) :
    ∀ c ∈ s.filter isDigitChar, isDigitChar c = true :=
  fun _ hc => (List.mem_filter.mp hc).2

lemma filter_paren_cons (l : List Char) :
    ('(' :: l).filter isDigitChar = l.filter isDigitChar := by
  rw [List.filter_cons, (by decide : isDigitChar '(' = false)]
  simp

/-- The digits of a masked value are the first 11 digits of the original
input: the mask inserts only non-digit decoration and truncates at 11. -/
lemma filter_formatPhone (s : List Char) :
    (formatPhone s).filter isDigitChar = (s.filter isDigitChar).take 11 := by
  have hall := all_filter_digits s
  have htake2 : ((s.filter isDigitChar).take 2).filter isDigitChar =
      (s.filter isDigitChar).take 2 :=
    List.filter_eq_self.mpr fun c hc => hall c (List.mem_of_mem_take hc)
  by_cases h0 : (s.filter isDigitChar).length = 0
  · rw [formatPhone_zero h0, List.length_eq_zero.mp h0]
    rfl
  · by_cases h2 : (s.filter isDigitChar).length ≤ 2
    · rw [formatPhone_small (by omega) h2, filter_paren_cons,
        List.filter_eq_self.mpr hall,
        List.take_of_length_le (i := 11) (by omega)]
    · by_cases h7 : (s.filter isDigitChar).length ≤ 7
      · have hdrop2 : ((s.filter isDigitChar).drop 2).filter isDigitChar =
            (s.filter isDigitChar).drop 2 :=
          List.filter_eq_self.mpr fun c hc => hall c (List.mem_of_mem_drop hc)
        rw [formatPhone_mid (by omega) h7, List.filter_append,
          List.filter_append, filter_paren_cons, htake2,
          (by decide : List.filter isDigitChar [')', ' '] = []),
          List.append_nil, hdrop2, List.take_append_drop,
          List.take_of_length_le (i := 11) (by omega)]
      · have h5 : (((s.filter isDigitChar).drop 2).take 5).filter isDigitChar =
            ((s.filter isDigitChar).drop 2).take 5 :=
          List.filter_eq_self.mpr fun c hc =>
            hall c (List.mem_of_mem_drop (List.mem_of_mem_take hc))
        have h4 : (((s.filter isDigitChar).drop 7).take 4).filter isDigitChar =
            ((s.filter isDigitChar).drop 7).take 4 :=
          List.filter_eq_self.mpr fun c hc =>
            hall c (List.mem_of_mem_drop (List.mem_of_mem_take hc))
        rw [formatPhone_big (by omega), List.filter_append, List.filter_append,
          List.filter_append, List.filter_append, filter_paren_cons, htake2,
          (by decide : List.filter isDigitChar [')', ' '] = []),
          (by decide : List.filter isDigitChar ['-'] = []), h5, h4]
        simp only [List.append_nil]
        show _ = List.take (2 + 9) (s.filter isDigitChar)
        rw [List.take_add, List.append_assoc]
        congr 1
        show _ = List.take (5 + 4) ((s.filter isDigitChar).drop 2)
        rw [List.take_add]
        congr 1
        rw [List.drop_drop]

/-- C2: the phone mask is idempotent — formatting an already-formatted
value returns it unchanged, for every input string. -/
theorem claim_C2_idempotent :
    ∀ x : List Char, formatPhone (formatPhone x) = formatPhone x := by
  intro x
  have hf := filter_formatPhone x
  by_cases h0 : (x.filter isDigitChar).length = 0
  · rw [formatPhone_zero h0]
    decide
  · by_cases h2 : (x.filter isDigitChar).length ≤ 2
    · have hx := formatPhone_small (s := x) (by omega) h2
      have hfil : ('(' :: x.filter isDigitChar).filter isDigitChar =
          x.filter isDigitChar := by
        rw [← hx, hf, List.take_of_length_le (by omega)]
      rw [hx, formatPhone_small (by rw [hfil]; omega) (by rw [hfil]; omega), hfil]
    · by_cases h7 : (x.filter isDigitChar).length ≤ 7
      · have hx := formatPhone_mid (s := x) (by omega) h7
        have hfil : ('(' :: (x.filter isDigitChar).take 2 ++ [')', ' '] ++
            (x.filter isDigitChar).drop 2).filter isDigitChar =
            x.filter isDigitChar := by
          rw [← hx, hf, List.take_of_length_le (by omega)]
        rw [hx, formatPhone_mid (by rw [hfil]; omega) (by rw [hfil]; omega), hfil]
      · have hx := formatPhone_big (s := x) (by omega)
        have hfil : ('(' :: (x.filter isDigitChar).take 2 ++ [')', ' '] ++
            ((x.filter isDigitChar).drop 2).take 5 ++ ['-'] ++
            ((x.filter isDigitChar).drop 7).take 4).filter isDigitChar =
            (x.filter isDigitChar).take 11 := by
          rw [← hx, hf]
        rw [hx, formatPhone_big (by rw [hfil, List.length_take]; omega), hfil]
        have e1 : ((x.filter isDigitChar).take 11).take 2 =
            (x.filter isDigitChar).take 2 := by
          rw [List.take_take]
          norm_num
        have e2 : (((x.filter isDigitChar).take 11).drop 2).take 5 =
            ((x.filter isDigitChar).drop 2).take 5 := by
          rw [List.drop_take, List.take_take]
          norm_num
        have e3 : (((x.filter isDigitChar).take 11).drop 7).take 4 =
            ((x.filter isDigitChar).drop 7).take 4 := by
          rw [List.drop_take, List.take_take]
          norm_num
        rw [e1, e2, e3]

lemma celMatch_length {l : List Char} (h : celularRegexMatch l = true) :
    l.length = 15 := by
  unfold celularRegexMatch at h
  split at h
  · simp
  · cases h

lemma exists_len_four {l : List Char} (h : l.length = 4) :
    ∃ a b c d, l = [a, b, c, d] := by
  rcases l with _ | ⟨a, l⟩
  · simp at h
  rcases l with _ | ⟨b, l⟩
  · simp at h
  rcases l with _ | ⟨c, l⟩
  · simp at h
  rcases l with _ | ⟨d, l⟩
  · simp at h
  rcases l with _ | ⟨e, l⟩
  · exact ⟨a, b, c, d, rfl⟩
  · simp at h

lemma exists_len_five {l : List Char} (h : l.length = 5) :
    ∃ a b c d e, l = [a, b, c, d, e] := by
  rcases l with _ | ⟨a, l⟩
  · simp at h
  have h' : l.length = 4 := by simp at h; omega
  obtain ⟨b, c, d, e, rfl⟩ := exists_len_four h'
  exact ⟨a, b, c, d, e, rfl⟩

/-- C10: the masked value matches the celular validation regex exactly
when the raw input contains at least 11 digit characters — so a phone
value produced solely through the mask passes validation exactly when the
user has typed 11 or more digits. -/
theorem claim_C10_mask_meets_validation :
    ∀ x : List Char,
      celularRegexMatch (formatPhone x) = true ↔
        11 ≤ (x.filter isDigitChar).length := by
  intro x
  have hall := all_filter_digits x
  constructor
  · intro hm
    by_contra hlt
    push_neg at hlt
    have hL := celMatch_length hm
    by_cases h0 : (x.filter isDigitChar).length = 0
    · rw [formatPhone_zero h0] at hL
      simp at hL
    · by_cases h2 : (x.filter isDigitChar).length ≤ 2
      · rw [formatPhone_small (by omega) h2] at hL
        simp only [List.length_cons] at hL
        omega
      · by_cases h7 : (x.filter isDigitChar).length ≤ 7
        · rw [formatPhone_mid (by omega) h7] at hL
          simp [List.length_append, List.length_take, List.length_drop] at hL
          omega
        · rw [formatPhone_big (by omega)] at hL
          simp [List.length_append, List.length_take, List.length_drop] at hL
          omega
  · intro h11
    obtain ⟨a1, a2, hA⟩ := List.length_eq_two.mp
      (show ((x.filter isDigitChar).take 2).length = 2 by
        rw [List.length_take]; omega)
    obtain ⟨b1, b2, b3, b4, b5, hB⟩ := exists_len_five
      (show (((x.filter isDigitChar).drop 2).take 5).length = 5 by
        rw [List.length_take, List.length_drop]; omega)
    obtain ⟨c1, c2, c3, c4, hC⟩ := exists_len_four
      (show (((x.filter isDigitChar).drop 7).take 4).length = 4 by
        rw [List.length_take, List.length_drop]; omega)
    have hA1 : isDigitChar a1 = true :=
      hall a1 (List.mem_of_mem_take (by rw [hA]; simp))
    have hA2 : isDigitChar a2 = true :=
      hall a2 (List.mem_of_mem_take (by rw [hA]; simp))
    have hB1 : isDigitChar b1 = true :=
      hall b1 (List.mem_of_mem_drop (List.mem_of_mem_take (by rw [hB]; simp)))
    have hB2 : isDigitChar b2 = true :=
      hall b2 (List.mem_of_mem_drop (List.mem_of_mem_take (by rw [hB]; simp)))
    have hB3 : isDigitChar b3 = true :=
      hall b3 (List.mem_of_mem_drop (List.mem_of_mem_take (by rw [hB]; simp)))
    have hB4 : isDigitChar b4 = true :=
      hall b4 (List.mem_of_mem_drop (List.mem_of_mem_take (by rw [hB]; simp)))
    have hB5 : isDigitChar b5 = true :=
      hall b5 (List.mem_of_mem_drop (List.mem_of_mem_take (by rw [hB]; simp)))
    have hC1 : isDigitChar c1 = true :=
      hall c1 (List.mem_of_mem_drop (List.mem_of_mem_take (by rw [hC]; simp)))
    have hC2 : isDigitChar c2 = true :=
      hall c2 (List.mem_of_mem_drop (List.mem_of_mem_take (by rw [hC]; simp)))
    have hC3 : isDigitChar c3 = true :=
      hall c3 (List.mem_of_mem_drop (List.mem_of_mem_take (by rw [hC]; simp)))
    have hC4 : isDigitChar c4 = true :=
      hall c4 (List.mem_of_mem_drop (List.mem_of_mem_take (by rw [hC]; simp)))
    rw [formatPhone_big (by omega), hA, hB, hC]
    simp only [List.cons_append, List.nil_append]
    simp [celularRegexMatch, hA1, hA2, hB1, hB2, hB3, hB4, hB5,
      hC1, hC2, hC3, hC4]

end Takeat
